import Mathlib

/-!
Verification of the StudentAuthenticator fingerprint pipeline
(`src/Reader.py`, class `StudentFingerprintReader`) against its
natural-language specification.

Shallow embedding conventions:
* Python floats become exact rationals (ℚ); the numeric literals of the
  source (50, 0.6, 0.4, 0.7, 1.0, 0.0) are exact decimals and are kept
  exact.  The float64 constant `np.pi` is embedded as its exact rational
  value `884279719003555 / 2^48`.
* The base64/JSON text layer (`base64.b64encode`/`b64decode`,
  `json.dumps`/`loads`, a reversible binary-to-text transform per §4.2 of
  the spec) is modelled at the level of the parsed structured value: a
  transportable template string is represented by the JSON value it parses
  to, and a string that fails base64/JSON parsing is represented by `none`.
* Database rows reaching the matching loop are pairs
  `(student_id, parsed template)`; the camera and the interactive menu are
  outside the core and are not modelled.
-/

namespace StudentFingerprintReader

/-- One ridge blob recorded by the feature extractor (`Reader.py` lines
78-82): a dict with keys `area`, `perimeter`, `circularity`. -/
structure RidgeBlob where
  area : ℚ
  perimeter : ℚ
  circularity : ℚ
deriving DecidableEq, Repr

/-- The template dict built at `Reader.py` lines 85-88: the surviving
features in detection order plus the md5 provenance hash of the image. -/
structure Template where
  features : List RidgeBlob
  image_hash : String
deriving DecidableEq, Repr

/-- Similarity between two decoded feature lists, translated from
`calculate_similarity` (`Reader.py` lines 232-266).  Python truthiness
`not features1 or not features2` is the emptiness test; `0.6`, `0.4`,
`1.0`, `0.0` are the exact rationals `3/5`, `2/5`, `1`, `0`. -/
def calculate_similarity (features1 features2 : List RidgeBlob) : ℚ :=
  if features1 = [] ∨ features2 = [] then 0
  else
    -- count_similarity = min(len(features1), len(features2)) / max(...)
    let count_similarity : ℚ :=
      ((min features1.length features2.length : ℕ) : ℚ) /
        ((max features1.length features2.length : ℕ) : ℚ)
    let areas1 := features1.map RidgeBlob.area
    let areas2 := features2.map RidgeBlob.area
    -- if areas1 and areas2: ... else: area_similarity = 0.0
    let area_similarity : ℚ :=
      if areas1 = [] ∨ areas2 = [] then 0
      else
        let avg_area1 := areas1.sum / (areas1.length : ℚ)
        let avg_area2 := areas2.sum / (areas2.length : ℚ)
        1 - |avg_area1 - avg_area2| / max avg_area1 avg_area2
    -- similarity = 0.6 * count_similarity + 0.4 * area_similarity
    let similarity := 3/5 * count_similarity + 2/5 * area_similarity
    -- return min(1.0, max(0.0, similarity))
    min 1 (max 0 similarity)

/-- Spec-side definition (§4.3): arithmetic mean of the blob areas. -/
def meanAreaSpec (fs : List RidgeBlob) : ℚ :=
  (fs.map RidgeBlob.area).sum / (fs.length : ℚ)

/-- Spec-side definition (§4.3): `min(|a|,|b|) / max(|a|,|b|)`. -/
def countSimilaritySpec (a b : List RidgeBlob) : ℚ :=
  ((min a.length b.length : ℕ) : ℚ) / ((max a.length b.length : ℕ) : ℚ)

/-- Spec-side definition (§4.3):
`1 - |meanArea(a) - meanArea(b)| / max(meanArea(a), meanArea(b))`. -/
def areaSimilaritySpec (a b : List RidgeBlob) : ℚ :=
  1 - |meanAreaSpec a - meanAreaSpec b| / max (meanAreaSpec a) (meanAreaSpec b)

/-- Spec-side definition: `clamp(x, lo, hi)`. -/
def clampSpec (x lo hi : ℚ) : ℚ :=
  min (max x lo) hi

/-- Spec-side definition (§4.3): 0.0 on an empty side, otherwise
`clamp(0.6 countSimilarity + 0.4 areaSimilarity, 0.0, 1.0)`. -/
def scoreSpec (a b : List RidgeBlob) : ℚ :=
  if a = [] ∨ b = [] then 0
  else clampSpec (3/5 * countSimilaritySpec a b + 2/5 * areaSimilaritySpec a b) 0 1

/-- C1: the implemented similarity agrees with the spec formula: it is 0.0
when either blob sequence is empty, and otherwise equals
`clamp(0.6 countSimilarity + 0.4 areaSimilarity, 0, 1)` with the spec
meanings of countSimilarity and areaSimilarity. -/
theorem calculate_similarity_eq_scoreSpec (f1 f2 : List RidgeBlob) :
    calculate_similarity f1 f2 = scoreSpec f1 f2 := by
  unfold calculate_similarity scoreSpec
  by_cases h : f1 = [] ∨ f2 = []
  · simp [h]
  · push_neg at h
    simp [h.1, h.2, countSimilaritySpec, areaSimilaritySpec, meanAreaSpec, clampSpec,
      List.length_map, min_comm, max_comm]

/-- C7: the similarity function is symmetric in its two arguments. -/
theorem calculate_similarity_comm (f1 f2 : List RidgeBlob) :
    calculate_similarity f1 f2 = calculate_similarity f2 f1 := by
  unfold calculate_similarity
  by_cases h1 : f1 = [] <;> by_cases h2 : f2 = [] <;>
    simp [h1, h2, min_comm, max_comm, abs_sub_comm]

/-! ### Template codec

A template string is `base64(json.dumps(dict))` (`Reader.py` lines 91-92)
and is read back with `json.loads(base64.b64decode(s))` (lines 192 and
205).  The base64/JSON text layer is the reversible binary-to-text
transform; it is modelled at the level of the parsed JSON value, so the
codec below works on a JSON AST.  A stored string that fails base64/JSON
parsing is represented upstream by `none`. -/

/-- JSON values, as produced by `json.dumps`/`json.loads` for the template
dicts of `Reader.py` (numbers, strings, arrays, objects suffice). -/
inductive Json where
  | num : ℚ → Json
  | str : String → Json
  | arr : List Json → Json
  | obj : List (String × Json) → Json

def keyFeatures : String := "features"
def hashW : String := "h"
def sidW : String := "S1"
def sidW2 : String := "S2"
def keyImageHash : String := "image_hash"
def keyArea : String := "area"
def keyPerimeter : String := "perimeter"
def keyCircularity : String := "circularity"

/-- Python `dict` lookup on the parsed JSON object (first matching key;
the template dicts have distinct keys). -/
def dictGet (kvs : List (String × Json)) (k : String) : Option Json :=
  match kvs with
  | [] => none
  | (k1, v) :: rest => if k1 = k then some v else dictGet rest k

/-- Encoding of one feature dict (`Reader.py` lines 78-82). -/
def blobToJson (b : RidgeBlob) : Json :=
  Json.obj [(keyArea, Json.num b.area), (keyPerimeter, Json.num b.perimeter),
    (keyCircularity, Json.num b.circularity)]

/-- Encoding of the template dict (`Reader.py` lines 85-88): the structured
value handed to `json.dumps` and then base64-wrapped. -/
def templateToJson (t : Template) : Json :=
  Json.obj [(keyFeatures, Json.arr (t.features.map blobToJson)),
    (keyImageHash, Json.str t.image_hash)]

/-- Reading one feature dict back: the fields the pipeline accesses
(the area field read at line 253 and the companions recorded at lines 78-82) must
be present and numeric; anything else raises in Python and surfaces as a
decode/score failure, i.e. `none`. -/
def blobOfJson : Json → Option RidgeBlob
  | Json.obj kvs =>
      match dictGet kvs keyArea, dictGet kvs keyPerimeter,
          dictGet kvs keyCircularity with
      | some (Json.num a), some (Json.num p), some (Json.num c) =>
          some { area := a, perimeter := p, circularity := c }
      | _, _, _ => none
  | _ => none

/-- Reading back a features list element by element. -/
def blobsOfJson : List Json → Option (List RidgeBlob)
  | [] => some []
  | j :: rest =>
      match blobOfJson j, blobsOfJson rest with
      | some b, some bs => some (b :: bs)
      | _, _ => none

/-- Feature extraction from a parsed template value:
the dict get of the features key, defaulting to an empty list (`Reader.py` lines 193 and 206).  A non-object
value raises `AttributeError` in Python (no `.get`), a non-array features
field or a malformed feature raises downstream; both surface as `none`. -/
def decodeFeatures : Json → Option (List RidgeBlob)
  | Json.obj kvs =>
      match (dictGet kvs keyFeatures).getD (Json.arr []) with
      | Json.arr fs => blobsOfJson fs
      | _ => none
  | _ => none

/-- Provenance hash carried in the parsed template value.  The matching
code never rebinds it (only `features` is projected at lines 193/206), but
`json.loads` recovers it; it is read here to state the codec round-trip of
§4.2.  A missing or non-string field defaults to the empty string. -/
def templateHash : Json → String
  | Json.obj kvs =>
      match dictGet kvs keyImageHash with
      | some (Json.str s) => s
      | _ => ""
  | _ => ""

/-- Decoding a parsed template value back to a `Template`. -/
def jsonToTemplate (j : Json) : Option Template :=
  (decodeFeatures j).map fun fs => { features := fs, image_hash := templateHash j }

theorem dictGet_head (k : String) (v : Json) (rest : List (String × Json)) :
    dictGet ((k, v) :: rest) k = some v := by
  simp [dictGet]

theorem dictGet_tail (k1 : String) (v : Json) (k : String)
    (rest : List (String × Json)) (h : k1 ≠ k) :
    dictGet ((k1, v) :: rest) k = dictGet rest k := by
  simp [dictGet, h]

theorem blobOfJson_blobToJson (b : RidgeBlob) :
    blobOfJson (blobToJson b) = some b := by
  simp [blobOfJson, blobToJson, dictGet_head,
    dictGet_tail _ _ _ _ (show keyArea ≠ keyPerimeter by decide),
    dictGet_tail _ _ _ _ (show keyArea ≠ keyCircularity by decide),
    dictGet_tail _ _ _ _ (show keyPerimeter ≠ keyCircularity by decide)]

theorem blobsOfJson_map (bs : List RidgeBlob) :
    blobsOfJson (bs.map blobToJson) = some bs := by
  induction bs with
  | nil => rfl
  | cons b rest ih => simp [blobsOfJson, blobOfJson_blobToJson, ih]

/-- C4: the codec round-trip law: decoding the encoded structured value of
any template recovers the template, field-wise on the blob list and on the
integrity hash. -/
theorem jsonToTemplate_templateToJson (t : Template) :
    jsonToTemplate (templateToJson t) = some t := by
  simp [jsonToTemplate, templateToJson, decodeFeatures, templateHash,
    dictGet_head, blobsOfJson_map,
    dictGet_tail _ _ _ _ (show keyFeatures ≠ keyImageHash by decide)]

/-- C9: a parsed template object with no `features` key decodes to a
template with an empty blob list (Python `dict.get` default at lines
193/206), not to a decode failure; the same `decodeFeatures` is applied to
the probe (line 193) and to every stored candidate (line 206). -/
theorem decode_missing_features (kvs : List (String × Json))
    (h : dictGet kvs keyFeatures = none) :
    decodeFeatures (Json.obj kvs) = some [] ∧
      jsonToTemplate (Json.obj kvs) = some { features := [], image_hash := templateHash (Json.obj kvs) } := by
  constructor
  · simp [decodeFeatures, h, blobsOfJson]
  · simp [jsonToTemplate, decodeFeatures, h, blobsOfJson]

/-- Witness for C9 at a concrete object that only carries the hash. -/
theorem decode_missing_features_witness :
    dictGet [(keyImageHash, Json.str hashW)] keyFeatures = none ∧
      decodeFeatures (Json.obj [(keyImageHash, Json.str hashW)]) = some [] := by
  refine ⟨rfl, ?_⟩
  exact (decode_missing_features [(keyImageHash, Json.str hashW)] rfl).1

/-! ### Identification engine

`match_fingerprint` (`Reader.py` lines 148-230): fetch the candidate rows,
decode the probe, linearly scan the candidates keeping the best-scoring
one above the threshold.  A candidate row is modelled as
`(student_id, parsed template)` where the parsed template is `none` when
the stored string fails base64/JSON parsing. -/

/-- A candidate row handed to the scan: the student id together with the
parse result of its stored template string. -/
abbrev Candidate := String × Option Json

/-- The similarity threshold (`Reader.py` line 200). -/
def threshold : ℚ := 7/10

/-- Observable outcome of `match_fingerprint`: the early `None` returns
(no rows, undecodable probe), a match (returned student id plus the
printed best score), or no match with the printed best score. -/
inductive MatchResult where
  | noTemplates : MatchResult
  | malformedProbe : MatchResult
  | matched : String → ℚ → MatchResult
  | noMatch : ℚ → MatchResult
deriving DecidableEq, Repr

/-- One iteration of the candidate loop (`Reader.py` lines 202-217): decode
the stored template (any exception skips the candidate), score it, and
replace the best only when the score is strictly greater than both the
current best score and the threshold. -/
def matchStep (input_features : List RidgeBlob)
    (acc : Option Candidate × ℚ) (student : Candidate) : Option Candidate × ℚ :=
  match student.2.bind decodeFeatures with
  | none => acc
  | some stored_features =>
      let similarity := calculate_similarity input_features stored_features
      if similarity > acc.2 ∧ similarity > threshold then (some student, similarity)
      else acc

/-- The identification engine (`Reader.py` lines 186-226): empty candidate
set returns early; an undecodable probe aborts; otherwise the scan starts
from `(None, 0.0)` and the result strips the stored template from the
returned row (only the id remains) alongside the printed best score. -/
def match_fingerprint (input_template : Option Json)
    (students : List Candidate) : MatchResult :=
  if students.isEmpty then MatchResult.noTemplates
  else
    match input_template.bind decodeFeatures with
    | none => MatchResult.malformedProbe
    | some input_features =>
        match students.foldl (matchStep input_features) (none, 0) with
        | (some best, best_score) => MatchResult.matched best.1 best_score
        | (none, best_score) => MatchResult.noMatch best_score

theorem isEmpty_append_cons {α : Type} (l1 : List α) (c : α) (l2 : List α) :
    (l1 ++ c :: l2).isEmpty = false := by
  cases l1 <;> simp [List.isEmpty]

/-- When no candidate can trigger a replacement, the accumulator passes
through the scan unchanged. -/
theorem foldl_matchStep_no_update (pf : List RidgeBlob)
    (l : List Candidate) (acc : Option Candidate × ℚ)
    (h : ∀ c ∈ l, ∀ fs, c.2.bind decodeFeatures = some fs →
      ¬(calculate_similarity pf fs > acc.2 ∧ calculate_similarity pf fs > threshold)) :
    l.foldl (matchStep pf) acc = acc := by
  induction l with
  | nil => rfl
  | cons a l ih =>
      have hstep : matchStep pf acc a = acc := by
        unfold matchStep
        cases hda : a.2.bind decodeFeatures with
        | none => rfl
        | some fs =>
            simp only []
            exact if_neg (h a (List.mem_cons_self a l) fs hda)
      rw [List.foldl_cons, hstep]
      exact ih (fun c hc fs hfs => h c (List.mem_cons_of_mem a hc) fs hfs)

/-- The best score tracked by the scan stays below a bound that dominates
the starting score and every candidate score. -/
theorem foldl_matchStep_score_lt (pf : List RidgeBlob) (s : ℚ)
    (l : List Candidate) (acc : Option Candidate × ℚ)
    (hacc : acc.2 < s)
    (h : ∀ c ∈ l, ∀ fs, c.2.bind decodeFeatures = some fs →
      calculate_similarity pf fs < s) :
    (l.foldl (matchStep pf) acc).2 < s := by
  induction l generalizing acc with
  | nil => exact hacc
  | cons a l ih =>
      rw [List.foldl_cons]
      refine ih (matchStep pf acc a) ?_ (fun c hc fs hfs => h c (List.mem_cons_of_mem a hc) fs hfs)
      unfold matchStep
      cases hda : a.2.bind decodeFeatures with
      | none => exact hacc
      | some fs =>
          simp only []
          by_cases hcond : calculate_similarity pf fs > acc.2 ∧ calculate_similarity pf fs > threshold

          · rw [if_pos hcond]
            exact h a (List.mem_cons_self a l) fs hda
          · rw [if_neg hcond]
            exact hacc

/-- Every candidate stored in the accumulator carries its decoded features,
its score is the tracked best score, the best score exceeds the threshold,
and the candidate comes from the accumulator or from the scanned list. -/
theorem foldl_matchStep_some (pf : List RidgeBlob) (l : List Candidate) :
    ∀ acc : Option Candidate × ℚ,
      (∀ c, acc.1 = some c → ∃ fs, c.2.bind decodeFeatures = some fs ∧
        calculate_similarity pf fs = acc.2 ∧ acc.2 > threshold) →
      ∀ c, (l.foldl (matchStep pf) acc).1 = some c →
        (∃ fs, c.2.bind decodeFeatures = some fs ∧
          calculate_similarity pf fs = (l.foldl (matchStep pf) acc).2 ∧
          (l.foldl (matchStep pf) acc).2 > threshold) ∧
        (acc.1 = some c ∨ c ∈ l) := by
  induction l with
  | nil =>
      intro acc hacc c hc
      exact ⟨hacc c hc, Or.inl hc⟩
  | cons a l ih =>
      intro acc hacc c hc
      rw [List.foldl_cons] at hc
      have hstep : (∀ c, (matchStep pf acc a).1 = some c →
          ∃ fs, c.2.bind decodeFeatures = some fs ∧
            calculate_similarity pf fs = (matchStep pf acc a).2 ∧
            (matchStep pf acc a).2 > threshold) ∧
          (∀ c, (matchStep pf acc a).1 = some c → acc.1 = some c ∨ c = a) := by
        unfold matchStep
        cases hda : a.2.bind decodeFeatures with
        | none => exact ⟨hacc, fun c hc => Or.inl hc⟩
        | some fs =>
            simp only []
            by_cases hcond : calculate_similarity pf fs > acc.2 ∧ calculate_similarity pf fs > threshold
            · rw [if_pos hcond]
              refine ⟨fun c hc => ?_, fun c hc => ?_⟩
              · cases hc
                exact ⟨fs, hda, rfl, hcond.2⟩
              · cases hc
                exact Or.inr rfl
            · rw [if_neg hcond]
              exact ⟨hacc, fun c hc => Or.inl hc⟩
      rw [List.foldl_cons]
      have hmain := ih (matchStep pf acc a) hstep.1 c hc
      refine ⟨hmain.1, ?_⟩
      rcases hmain.2 with h1 | h2
      · rcases hstep.2 c h1 with h3 | h4
        · exact Or.inl h3
        · exact Or.inr (h4 ▸ List.mem_cons_self a l)
      · exact Or.inr (List.mem_cons_of_mem a h2)

/-- C2: a returned identity always scores strictly above the 0.7 threshold
against the probe: when the engine returns `matched sid s`, the score `s`
is the similarity of the stored features of the returned candidate against the
probe features and exceeds the threshold. -/
theorem match_fingerprint_threshold (pt : Option Json) (pf : List RidgeBlob)
    (students : List Candidate) (sid : String) (s : ℚ)
    (hpf : pt.bind decodeFeatures = some pf)
    (hres : match_fingerprint pt students = MatchResult.matched sid s) :
    s > threshold ∧ ∃ c ∈ students, c.1 = sid ∧
      ∃ fs, c.2.bind decodeFeatures = some fs ∧ calculate_similarity pf fs = s := by
  unfold match_fingerprint at hres
  by_cases hemp : students.isEmpty
  · rw [if_pos hemp] at hres
    exact absurd hres (by simp)
  · rw [if_neg hemp, hpf] at hres
    have hres2 :
        (match students.foldl (matchStep pf) (none, 0) with
          | (some best, best_score) => MatchResult.matched best.1 best_score
          | (none, best_score) => MatchResult.noMatch best_score) =
          MatchResult.matched sid s := hres
    rcases hfold : students.foldl (matchStep pf) (none, 0) with ⟨obest, bs⟩
    rw [hfold] at hres2
    cases obest with
    | none => exact absurd hres2 (by simp)
    | some best =>
        simp only [MatchResult.matched.injEq] at hres2
        have hinv := foldl_matchStep_some pf students (none, 0)
          (fun c hc => by simp at hc) best (by rw [hfold])
        rw [hfold] at hinv
        rcases hinv with ⟨⟨fs, hdec, hsim, hthr⟩, hmem⟩
        rcases hmem with h1 | h2
        · exact absurd h1 (by simp)
        · exact ⟨hres2.2 ▸ hthr, best, h2, hres2.1 ▸ rfl, fs, hdec, hres2.2 ▸ hsim⟩

/-- A concrete blob, template and parsed template value used by the
witnesses below. -/
def blobW : RidgeBlob := { area := 100, perimeter := 40, circularity := 1 }

def templW : Template := { features := [blobW], image_hash := hashW }

def pjW : Json := templateToJson templW

theorem decodeFeatures_pjW : decodeFeatures pjW = some [blobW] := rfl

theorem bind_decodeFeatures_pjW :
    (some pjW : Option Json).bind decodeFeatures = some [blobW] := rfl

theorem calculate_similarity_blobW : calculate_similarity [blobW] [blobW] = 1 := by
  simp [calculate_similarity, blobW]
  norm_num

/-- Witness for C2: a single candidate identical to the probe scores 1 and
is returned with that score, which exceeds the threshold. -/
theorem match_fingerprint_threshold_witness :
    match_fingerprint (some pjW) [(sidW, some pjW)] = MatchResult.matched sidW 1 ∧
      ((1 : ℚ) > threshold ∧ ∃ c ∈ [(sidW, some pjW)], c.1 = sidW ∧
        ∃ fs, c.2.bind decodeFeatures = some fs ∧ calculate_similarity [blobW] fs = 1) := by
  have hrun : match_fingerprint (some pjW) [(sidW, some pjW)] = MatchResult.matched sidW 1 := by
    norm_num [match_fingerprint, matchStep, decodeFeatures_pjW, calculate_similarity_blobW,
      threshold]
  exact ⟨hrun, match_fingerprint_threshold (some pjW) [blobW] [(sidW, some pjW)] sidW 1
    bind_decodeFeatures_pjW hrun⟩

/-- A single step keeps the accumulator when the candidate cannot pass the
replacement test. -/
theorem matchStep_keep (pf : List RidgeBlob) (acc : Option Candidate × ℚ)
    (c : Candidate)
    (h : ∀ fs, c.2.bind decodeFeatures = some fs →
      ¬(calculate_similarity pf fs > acc.2 ∧ calculate_similarity pf fs > threshold)) :
    matchStep pf acc c = acc := by
  unfold matchStep
  cases hd : c.2.bind decodeFeatures with
  | none => rfl
  | some fs =>
      simp only []
      exact if_neg (h fs hd)

/-- A single step replaces the accumulator when the candidate decodes and
its score beats both the current best and the threshold. -/
theorem matchStep_update (pf : List RidgeBlob) (acc : Option Candidate × ℚ)
    (sid : String) (j : Json) (fs : List RidgeBlob)
    (hdec : decodeFeatures j = some fs)
    (hgt : calculate_similarity pf fs > acc.2)
    (hthr : calculate_similarity pf fs > threshold) :
    matchStep pf acc (sid, some j) = (some (sid, some j), calculate_similarity pf fs) := by
  unfold matchStep
  simp [hdec, hgt, hthr]

/-- C3 (amended): when every decoded candidate scores at most the 0.7
threshold, the engine reports no match with best score 0.0 — the tracked
best score is only ever updated by candidates strictly above the
threshold, so it stays at its initial value, not at the maximum score
observed. -/
theorem match_fingerprint_noMatch_zero (pt : Option Json) (pf : List RidgeBlob)
    (students : List Candidate)
    (hne : students ≠ [])
    (hpf : pt.bind decodeFeatures = some pf)
    (hall : ∀ c ∈ students, ∀ fs, c.2.bind decodeFeatures = some fs →
      calculate_similarity pf fs ≤ threshold) :
    match_fingerprint pt students = MatchResult.noMatch 0 := by
  have hemp : students.isEmpty = false := by
    cases students with
    | nil => exact absurd rfl hne
    | cons a l => rfl
  have hfold : students.foldl (matchStep pf) (none, 0) = (none, 0) :=
    foldl_matchStep_no_update pf students (none, 0)
      (fun c hc fs hfs hcontra => absurd hcontra.2 (not_lt.mpr (hall c hc fs hfs)))
  simp [match_fingerprint, hemp, hpf, hfold]

/-- A template value with two identical blobs: against the one-blob probe
`pjW` it scores countSimilarity 1/2 and areaSimilarity 1, i.e. exactly
0.7, which does not pass the strict threshold test. -/
def pj2W : Json := templateToJson { features := [blobW, blobW], image_hash := hashW }

theorem decodeFeatures_pj2W : decodeFeatures pj2W = some [blobW, blobW] := rfl

theorem calculate_similarity_blobW_two :
    calculate_similarity [blobW] [blobW, blobW] = 7/10 := by
  simp [calculate_similarity, blobW]
  norm_num

/-- Counterexample to C3 as stated: the only candidate decodes and scores
exactly 0.7 against the probe, so the maximum score observed over decoded
candidates is 0.7, yet the engine reports no match with best score 0, not
0.7. -/
theorem match_fingerprint_best_score_counterexample :
    match_fingerprint (some pjW) [(sidW, some pj2W)] = MatchResult.noMatch 0 ∧
      decodeFeatures pj2W = some [blobW, blobW] ∧
      calculate_similarity [blobW] [blobW, blobW] = 7/10 ∧
      (7/10 : ℚ) ≠ 0 := by
  refine ⟨?_, rfl, calculate_similarity_blobW_two, by norm_num⟩
  norm_num [match_fingerprint, matchStep, decodeFeatures_pjW, decodeFeatures_pj2W,
    calculate_similarity_blobW_two, threshold]

/-- Witness for the amended C3 at the same concrete input. -/
theorem match_fingerprint_noMatch_zero_witness :
    calculate_similarity [blobW] [blobW, blobW] ≤ threshold ∧
      match_fingerprint (some pjW) [(sidW, some pj2W)] = MatchResult.noMatch 0 := by
  refine ⟨by rw [calculate_similarity_blobW_two]; norm_num [threshold], ?_⟩
  refine match_fingerprint_noMatch_zero (some pjW) [blobW] [(sidW, some pj2W)]
    (by simp) bind_decodeFeatures_pjW ?_
  intro c hc fs hfs
  simp only [List.mem_singleton] at hc
  subst hc
  simp only [Option.some_bind, decodeFeatures_pj2W, Option.some.injEq] at hfs
  subst hfs
  rw [calculate_similarity_blobW_two]
  norm_num [threshold]

/-- C5: a candidate whose stored template does not decode is skipped and
the scan result over the remaining candidates is unchanged, wherever the
malformed entry sits (the remaining list is required non-empty, since an
all-malformed-or-empty set takes the early no-templates return). -/
theorem match_fingerprint_skips_malformed (pt : Option Json)
    (l1 l2 : List Candidate) (sid : String) (tj : Option Json)
    (hmal : tj.bind decodeFeatures = none)
    (hne : l1 ++ l2 ≠ []) :
    match_fingerprint pt (l1 ++ (sid, tj) :: l2) = match_fingerprint pt (l1 ++ l2) := by
  have he1 : (l1 ++ (sid, tj) :: l2).isEmpty = false := isEmpty_append_cons l1 _ l2
  have he2 : (l1 ++ l2).isEmpty = false := by
    cases h : l1 ++ l2 with
    | nil => exact absurd h hne
    | cons a l => rfl
  cases hdec : pt.bind decodeFeatures with
  | none => simp [match_fingerprint, he1, he2, hdec]
  | some pf =>
      have hskip : matchStep pf (l1.foldl (matchStep pf) (none, 0)) (sid, tj)
          = l1.foldl (matchStep pf) (none, 0) :=
        matchStep_keep pf _ _ (fun fs hfs => by rw [hmal] at hfs; exact absurd hfs (by simp))
      have hfold : (l1 ++ (sid, tj) :: l2).foldl (matchStep pf) (none, 0)
          = (l1 ++ l2).foldl (matchStep pf) (none, 0) := by
        rw [List.foldl_append, List.foldl_cons, hskip, List.foldl_append]
      simp [match_fingerprint, he1, he2, hdec, hfold]

/-- Witness for C5: one malformed entry after one valid entry leaves the
result unchanged. -/
theorem match_fingerprint_skips_malformed_witness :
    ((none : Option Json).bind decodeFeatures = none) ∧
      match_fingerprint (some pjW) [(sidW, some pjW), (sidW2, none)]
        = match_fingerprint (some pjW) [(sidW, some pjW)] := by
  refine ⟨rfl, ?_⟩
  exact match_fingerprint_skips_malformed (some pjW) [(sidW, some pjW)] [] sidW2 none
    rfl (by simp)

/-- C6: ties keep the earliest candidate.  If two candidates decode to
scores equal to `s`, with `s` above the threshold, every candidate before
the first of the two scores strictly below `s`, and every other candidate
scores at most `s`, then the engine returns the first of the two with
score `s`: replacement requires a strictly greater score, so the later
equal-scoring candidate never displaces the earlier one. -/
theorem match_fingerprint_tie_earliest (pt : Option Json) (pf : List RidgeBlob)
    (l1 l2 l3 : List Candidate) (sid1 sid2 : String) (j1 j2 : Json)
    (fs1 fs2 : List RidgeBlob) (s : ℚ)
    (hpf : pt.bind decodeFeatures = some pf)
    (h1 : decodeFeatures j1 = some fs1) (h2 : decodeFeatures j2 = some fs2)
    (hs1 : calculate_similarity pf fs1 = s) (hs2 : calculate_similarity pf fs2 = s)
    (hthr : s > threshold)
    (hl1 : ∀ c ∈ l1, ∀ fs, c.2.bind decodeFeatures = some fs →
      calculate_similarity pf fs < s)
    (hrest : ∀ c ∈ l2 ++ l3, ∀ fs, c.2.bind decodeFeatures = some fs →
      calculate_similarity pf fs ≤ s) :
    match_fingerprint pt (l1 ++ [(sid1, some j1)] ++ l2 ++ [(sid2, some j2)] ++ l3)
      = MatchResult.matched sid1 s := by
  have h0 : (0 : ℚ) < s := lt_trans (by norm_num [threshold]) hthr
  have hF1 : (l1.foldl (matchStep pf) (none, 0)).2 < s :=
    foldl_matchStep_score_lt pf s l1 (none, 0) h0 hl1
  have hA2 : matchStep pf (l1.foldl (matchStep pf) (none, 0)) (sid1, some j1)
      = (some (sid1, some j1), s) := by
    have := matchStep_update pf (l1.foldl (matchStep pf) (none, 0)) sid1 j1 fs1 h1
      (by rw [hs1]; exact hF1) (by rw [hs1]; exact hthr)
    rw [hs1] at this
    exact this
  have hA3 : l2.foldl (matchStep pf) (some (sid1, some j1), s) = (some (sid1, some j1), s) :=
    foldl_matchStep_no_update pf l2 _
      (fun c hc fs hfs hcontra =>
        absurd hcontra.1 (not_lt.mpr (hrest c (List.mem_append_left l3 hc) fs hfs)))
  have hA4 : matchStep pf (some (sid1, some j1), s) (sid2, some j2)
      = (some (sid1, some j1), s) := by
    apply matchStep_keep
    intro fs hfs
    simp only [Option.some_bind, h2, Option.some.injEq] at hfs
    subst hfs
    intro hcontra
    exact absurd (hs2 ▸ hcontra.1) (lt_irrefl s)
  have hA5 : l3.foldl (matchStep pf) (some (sid1, some j1), s) = (some (sid1, some j1), s) :=
    foldl_matchStep_no_update pf l3 _
      (fun c hc fs hfs hcontra =>
        absurd hcontra.1 (not_lt.mpr (hrest c (List.mem_append_right l2 hc) fs hfs)))
  have he : (l1 ++ [(sid1, some j1)] ++ l2 ++ [(sid2, some j2)] ++ l3).isEmpty = false := by
    simp
  simp [match_fingerprint, he, hpf, hA2, hA3, hA4, hA5]

/-- Witness for C6: two candidates identical to the probe both score 1;
the first is returned. -/
theorem match_fingerprint_tie_earliest_witness :
    (1 : ℚ) > threshold ∧
      match_fingerprint (some pjW) [(sidW, some pjW), (sidW2, some pjW)]
        = MatchResult.matched sidW 1 := by
  refine ⟨by norm_num [threshold], ?_⟩
  exact match_fingerprint_tie_earliest (some pjW) [blobW] [] [] [] sidW sidW2 pjW pjW
    [blobW] [blobW] 1 bind_decodeFeatures_pjW decodeFeatures_pjW decodeFeatures_pjW
    calculate_similarity_blobW calculate_similarity_blobW (by norm_num [threshold])
    (by simp) (by simp)

/-! ### Feature extractor

`extract_fingerprint_features` (`Reader.py` lines 43-98).  The OpenCV
stages (grayscale, blur, Otsu threshold, external contours) are the image
collaborator; the pipeline after them iterates over the detected contours,
reading `cv2.contourArea` and `cv2.arcLength` for each.  A contour is
therefore embedded as its measured area and perimeter, and the md5 hash of
the raw image is an opaque string parameter. -/

/-- One detected external contour, by its measurements. -/
structure Contour where
  area : ℚ
  perimeter : ℚ
deriving DecidableEq, Repr

/-- Exact rational value of the IEEE-754 float64 constant `np.pi`. -/
def npPi : ℚ := 884279719003555 / 281474976710656

/-- The contour loop (`Reader.py` lines 70-82): keep contours with
area > 50, then with perimeter > 0, and record area, perimeter and
circularity `4·pi·area / perimeter²` in detection order. -/
def contourFeatures : List Contour → List RidgeBlob
  | [] => []
  | c :: rest =>
      if c.area > 50 then
        if c.perimeter > 0 then
          { area := c.area, perimeter := c.perimeter,
            circularity := 4 * npPi * c.area / (c.perimeter * c.perimeter) }
            :: contourFeatures rest
        else contourFeatures rest
      else contourFeatures rest

/-- Template assembly (`Reader.py` lines 85-88) from the surviving
features and the image hash. -/
def extract_fingerprint_features (contours : List Contour) (imageHash : String) : Template :=
  { features := contourFeatures contours, image_hash := imageHash }

theorem contourFeatures_mem (cs : List Contour) :
    ∀ b ∈ contourFeatures cs, ∃ c ∈ cs, c.area > 50 ∧ c.perimeter > 0 ∧
      b = { area := c.area, perimeter := c.perimeter, circularity := 4 * npPi * c.area / (c.perimeter * c.perimeter) } := by
  induction cs with
  | nil => intro b hb; exact absurd hb (by simp [contourFeatures])
  | cons c rest ih =>
      intro b hb
      unfold contourFeatures at hb
      by_cases h1 : c.area > 50
      · rw [if_pos h1] at hb
        by_cases h2 : c.perimeter > 0
        · rw [if_pos h2] at hb
          rcases List.mem_cons.mp hb with hb1 | hb2
          · exact ⟨c, List.mem_cons_self c rest, h1, h2, hb1⟩
          · rcases ih b hb2 with ⟨d, hd, hda, hdp, hdb⟩
            exact ⟨d, List.mem_cons_of_mem c hd, hda, hdp, hdb⟩
        · rw [if_neg h2] at hb
          rcases ih b hb with ⟨d, hd, hda, hdp, hdb⟩
          exact ⟨d, List.mem_cons_of_mem c hd, hda, hdp, hdb⟩
      · rw [if_neg h1] at hb
        rcases ih b hb with ⟨d, hd, hda, hdp, hdb⟩
        exact ⟨d, List.mem_cons_of_mem c hd, hda, hdp, hdb⟩

/-- C8: every blob in an extractor output has area > 50 and
perimeter > 0, and its circularity is `4·pi·area / perimeter²` (with the
float64 `np.pi` of the source); contours failing either check contribute no
blob. -/
theorem extract_blob_invariant (contours : List Contour) (imageHash : String) :
    ∀ b ∈ (extract_fingerprint_features contours imageHash).features,
      b.area > 50 ∧ b.perimeter > 0 ∧
        b.circularity = 4 * npPi * b.area / (b.perimeter * b.perimeter) := by
  intro b hb
  rcases contourFeatures_mem contours b hb with ⟨c, _, hca, hcp, hcb⟩
  subst hcb
  exact ⟨hca, hcp, rfl⟩

/-- A concrete blob as produced from a contour with area 100 and
perimeter 40, for the C8 witness. -/
def blobC : RidgeBlob := { area := 100, perimeter := 40, circularity := 4 * npPi * 100 / (40 * 40) }

/-- The one concrete contour feeding the C8 witness. -/
def contourC : Contour := { area := 100, perimeter := 40 }

theorem extract_blob_invariant_witness :
    blobC ∈ (extract_fingerprint_features [contourC] hashW).features ∧
      (blobC.area > 50 ∧ blobC.perimeter > 0 ∧
        blobC.circularity = 4 * npPi * blobC.area / (blobC.perimeter * blobC.perimeter)) := by
  have hmem : blobC ∈ (extract_fingerprint_features [contourC] hashW).features := by
    norm_num [extract_fingerprint_features, contourFeatures, blobC, contourC]
  exact ⟨hmem, extract_blob_invariant [contourC] hashW blobC hmem⟩

/-! ### Enrollment

`enroll_fingerprint` (`Reader.py` lines 268-302): scan a template, then
`UPDATE students SET fingerprint_template = %s WHERE student_id = %s` and
return `True`.  The SQL row update is the storage collaborator; its
row-filtering semantics are embedded as a map over the stored rows.  A
failed scan returns `False` before touching the store; the unreachable-
database exception path is outside this model. -/

/-- A stored identity record, reduced to the fields the core touches. -/
structure StudentRow where
  student_id : String
  fingerprint_template : Option Json

/-- Semantics of the `UPDATE` at `Reader.py` lines 288-293: set the
template of every row whose `student_id` matches (zero rows match when
the key is absent, and the statement still succeeds). -/
def updateTemplate (rows : List StudentRow) (tmpl : Json) (student_id : String) :
    List StudentRow :=
  rows.map fun r =>
    if r.student_id = student_id then { r with fingerprint_template := some tmpl } else r

/-- Enrollment (`Reader.py` lines 268-302): no captured template fails
early; otherwise the update runs, is committed, and the call reports
success. -/
def enroll_fingerprint (rows : List StudentRow) (scanned : Option Json)
    (student_id : String) : Bool × List StudentRow :=
  match scanned with
  | none => (false, rows)
  | some template => (true, updateTemplate rows template student_id)

/-- C10: with a captured template and a reachable store, enrollment for an
identity key absent from the store reports success and leaves every row
unchanged — indistinguishable from a real enrollment. -/
theorem enroll_fingerprint_absent_id (rows : List StudentRow) (template : Json)
    (student_id : String)
    (habsent : ∀ r ∈ rows, r.student_id ≠ student_id) :
    enroll_fingerprint rows (some template) student_id = (true, rows) := by
  unfold enroll_fingerprint updateTemplate
  refine Prod.ext rfl ?_
  simp only []
  calc rows.map (fun r =>
        if r.student_id = student_id then { r with fingerprint_template := some template } else r)
      = rows.map id := List.map_congr_left (fun r hr => if_neg (habsent r hr))
    _ = rows := List.map_id rows

/-- Witness for C10: enrolling an id not present in a one-row store. -/
theorem enroll_fingerprint_absent_id_witness :
    (∀ r ∈ [({ student_id := sidW2, fingerprint_template := none } : StudentRow)],
        r.student_id ≠ sidW) ∧
      enroll_fingerprint [{ student_id := sidW2, fingerprint_template := none }]
        (some pjW) sidW
        = (true, [{ student_id := sidW2, fingerprint_template := none }]) := by
  have habsent : ∀ r ∈ [({ student_id := sidW2, fingerprint_template := none } : StudentRow)],
      r.student_id ≠ sidW := by
    intro r hr
    simp only [List.mem_singleton] at hr
    subst hr
    decide
  exact ⟨habsent, enroll_fingerprint_absent_id _ pjW sidW habsent⟩

end StudentFingerprintReader
